import Mathlib

/-!
Shallow embedding of the disposition-checker repository
(`src/disposition_checker.py` and `src/limit_up_tw.py`).

Python floats are modelled as rationals (`ℚ`), calendar dates as integer
ordinals (`Int`), and the exceptions of the code as `Except`.  Python float
division raises `ZeroDivisionError` exactly when the divisor is `0`, so the
metric computation checks each divisor for zero at the point where the source
divides by it.
-/

/-- One parsed CSV row (`parse_row`, lines 31-44): a daily trading record for
the security and the reference index. -/
structure Row where
  date : Int
  open_ : ℚ
  high : ℚ
  low : ℚ
  close : ℚ
  volume : ℚ
  idx_open : ℚ
  idx_high : ℚ
  idx_low : ℚ
  idx_close : ℚ
  outstanding : ℚ
deriving Repr, DecidableEq, Inhabited

/-- The five metric fields `compute_metrics` attaches to a row via
`row.update` (lines 65-71). -/
structure Metrics where
  amplitude : ℚ
  amplitude_diff : ℚ
  price_change : ℚ
  price_diff : ℚ
  turnover : ℚ
deriving Repr, DecidableEq, Inhabited

/-- Failure of `compute_metrics`: Python raises `ZeroDivisionError` when a
float divisor is exactly zero. -/
inductive DataError where
  | zeroDivisor
deriving Repr, DecidableEq

/-- Loop body of `compute_metrics` (lines 51-71) for one row.  `prev` carries
the `(prev_close, prev_idx_close)` state, `none` on the first iteration.  The
zero tests appear in the order in which Python evaluates the corresponding
divisions: `low`, `idx_low`, then (when a previous row exists) `prev_close`
and `prev_idx_close`, then `outstanding`.  On the first row the source sets
`price_change = 0` and `idx_price_change = 0`, so `price_diff = 0 - 0`. -/
def computeRowMetrics (prev : Option (ℚ × ℚ)) (row : Row) : Except DataError Metrics :=
  match prev with
  | none =>
    if row.low = 0 then .error .zeroDivisor
    else if row.idx_low = 0 then .error .zeroDivisor
    else if row.outstanding = 0 then .error .zeroDivisor
    else
      let amplitude := (row.high - row.low) / row.low * 100
      let idx_amplitude := (row.idx_high - row.idx_low) / row.idx_low * 100
      .ok ⟨amplitude, amplitude - idx_amplitude, 0, 0 - 0,
        row.volume / row.outstanding * 100⟩
  | some (pc, pic) =>
    if row.low = 0 then .error .zeroDivisor
    else if row.idx_low = 0 then .error .zeroDivisor
    else if pc = 0 then .error .zeroDivisor
    else if pic = 0 then .error .zeroDivisor
    else if row.outstanding = 0 then .error .zeroDivisor
    else
      let amplitude := (row.high - row.low) / row.low * 100
      let idx_amplitude := (row.idx_high - row.idx_low) / row.idx_low * 100
      let price_change := (row.close - pc) / pc * 100
      let idx_price_change := (row.idx_close - pic) / pic * 100
      .ok ⟨amplitude, amplitude - idx_amplitude, price_change,
        price_change - idx_price_change, row.volume / row.outstanding * 100⟩

/-- The iteration of `compute_metrics` over the row list, threading the
`(prev_close, prev_idx_close)` state (lines 48-74).  The in-place
`row.update` of the source becomes returning the row paired with its
metrics. -/
def computeMetricsAux : Option (ℚ × ℚ) → List Row → Except DataError (List (Row × Metrics))
  | _, [] => .ok []
  | prev, row :: rest =>
    match computeRowMetrics prev row with
    | .error e => .error e
    | .ok m =>
      match computeMetricsAux (some (row.close, row.idx_close)) rest with
      | .error e => .error e
      | .ok tail => .ok ((row, m) :: tail)

/-- Equality of `Except` results is decidable componentwise. -/
instance {e a : Type} [DecidableEq e] [DecidableEq a] : DecidableEq (Except e a) := fun x y =>
  match x, y with
  | .error u, .error v =>
    if h : u = v then .isTrue (by rw [h]) else .isFalse (by intro hc; cases hc; exact h rfl)
  | .ok u, .ok v =>
    if h : u = v then .isTrue (by rw [h]) else .isFalse (by intro hc; cases hc; exact h rfl)
  | .error _, .ok _ => .isFalse (by intro hc; cases hc)
  | .ok _, .error _ => .isFalse (by intro hc; cases hc)

/-- Embedding of `compute_metrics` (lines 47-74): starts with no previous
close. -/
def compute_metrics (rows : List Row) : Except DataError (List (Row × Metrics)) :=
  computeMetricsAux none rows

/-- Loop body of `flag_unusual` (lines 80-83): the three unusual-trading
conditions for one enriched row. -/
def rowUnusual (rm : Row × Metrics) : Bool :=
  let cond1 := decide (rm.2.amplitude > 9) && decide (rm.2.amplitude_diff > 5) &&
    decide (rm.1.volume ≥ 3000)
  let cond2 := decide (rm.2.price_change > 6) && decide (rm.2.price_diff > 4) &&
    decide (rm.1.volume ≥ 3000)
  let cond3 := decide (rm.2.turnover > 10) && decide (rm.1.volume ≥ 3000)
  cond1 || cond2 || cond3

/-- Embedding of `flag_unusual` (lines 77-85): one boolean per enriched
row. -/
def flag_unusual (rows : List (Row × Metrics)) : List Bool :=
  rows.map rowUnusual

/-- Python slice sum `sum(flags[start:stop])`: the number of `true` entries of
the slice `flags[start:stop]`. -/
def sliceCount (flags : List Bool) (start stop : Nat) : Nat :=
  ((flags.drop start).take (stop - start)).count true

/-- Loop body of `check_disposition` (lines 92-106), the `if`/`continue`
chain deciding whether day `i` is appended.  `Nat` subtraction `i - 9` is the
source's `max(0, i - 9)`. -/
def triggers (flags : List Bool) (i : Nat) : Bool :=
  if 2 ≤ i ∧ flags.getD i false = true ∧ flags.getD (i-1) false = true ∧
      flags.getD (i-2) false = true then true
  else if 6 ≤ sliceCount flags (i - 9) (i + 1) then true
  else if 12 ≤ sliceCount flags (i - 29) (i + 1) then true
  else false

/-- Embedding of `check_disposition` (lines 88-107): for `i` in `range n`,
append `dates[i]` when the rule chain fires. -/
def check_disposition (dates : List Int) (flags : List Bool) : List Int :=
  ((List.range dates.length).filter (fun i => triggers flags i)).map
    (fun i => dates.getD i 0)

/-- Written from the specification text: the count of `true` flags in the
inclusive index window `[lo, i]`. -/
def windowCount (flags : List Bool) (lo i : Nat) : Nat :=
  (List.range' lo (i + 1 - lo)).countP (fun j => flags.getD j false)

/-- Written from the specification text: day `i` triggers disposition under
Rule A (consecutive-3), Rule B (6-of-10) or Rule C (12-of-30), the short
windows clamped at the sequence start. -/
def specTriggers (flags : List Bool) (i : Nat) : Bool :=
  decide (2 ≤ i ∧ flags.getD i false = true ∧ flags.getD (i-1) false = true ∧
      flags.getD (i-2) false = true)
  || decide (6 ≤ windowCount flags (i - 9) i)
  || decide (12 ≤ windowCount flags (i - 29) i)

/-- Parsed JSON payload of the TWSE endpoint used by `fetch_limit_up`:
its `stat` field and its `data` rows. -/
structure Payload where
  stat : String
  data : List (List String)
deriving Repr, DecidableEq

/-- One output entry of `fetch_limit_up` (line 166). -/
structure Stock where
  stock_no : String
  stock_name : String
deriving Repr, DecidableEq

/-- The two failures of `fetch_limit_up`: the `RuntimeError` raised when the
transport fails (message `Failed to fetch data: ...`, line 157) and the
`RuntimeError` raised when the payload status is not `OK` (message
`API error: ...`, line 161). -/
inductive FetchFailure where
  | fetchError (msg : String)
  | apiError (stat : String)
deriving Repr, DecidableEq

/-- Embedding of `fetch_limit_up` (lines 136-167).  The transport outcome of
`urlopen` plus `json.loads` is passed in as `resp`: a transport failure
(`URLError`) on the left, the parsed payload on the right. -/
def fetch_limit_up (resp : Except String Payload) : Except FetchFailure (List Stock) :=
  match resp with
  | .error e => .error (.fetchError (String.append "Failed to fetch data: " e))
  | .ok d =>
    if d.stat ≠ "OK" then .error (.apiError d.stat)
    else .ok ((d.data.filter (fun r => decide (2 ≤ r.length))).map
      (fun r => ⟨r.getD 0 "", r.getD 1 ""⟩))

/-- Flag sequence of the consecutive-3 scenario: three flagged days then
seven quiet ones. -/
def flagsA : List Bool :=
  [true, true, true, false, false, false, false, false, false, false]

/-- Flag sequence of the alternating scenario: eleven days alternating
starting flagged. -/
def flagsB : List Bool :=
  [true, false, true, false, true, false, true, false, true, false, true]

/-- Flag sequence with six flagged days followed by one quiet day. -/
def flagsC : List Bool :=
  [true, true, true, true, true, true, false]

/-- C8: on flags `[T,T,T,F,F,F,F,F,F,F]` with dates `0..9` the evaluator
emits exactly date `2`; Rule A holds at index `2`, and no index satisfies
Rule B or Rule C since every window holds at most three flags. -/
theorem check_disposition_consecutive_scenario :
    check_disposition [0, 1, 2, 3, 4, 5, 6, 7, 8, 9] flagsA = [2] ∧
      (2 ≤ 2 ∧ flagsA.getD 2 false = true ∧ flagsA.getD 1 false = true ∧
        flagsA.getD 0 false = true) ∧
      ((List.range 10).all (fun i =>
        !decide (6 ≤ windowCount flagsA (i - 9) i) &&
        !decide (12 ≤ windowCount flagsA (i - 29) i))) = true := by
  decide

/-- C9: on the alternating flags `[T,F,T,F,T,F,T,F,T,F,T]` the evaluator
emits nothing; the window `[0,9]` holds 5 trues and the window `[1,10]`
holds 5 trues, below the 6-of-10 threshold. -/
theorem check_disposition_alternating_scenario :
    check_disposition [0, 1, 2, 3, 4, 5, 6, 7, 8, 9, 10] flagsB = [] ∧
      windowCount flagsB 0 9 = 5 ∧ windowCount flagsB 1 10 = 5 := by
  decide

/-- C10: a day whose own flag is `false` can still be emitted: with six
flagged days followed by a quiet one, date `6` is emitted (its window `[0,6]`
counts 6 trues) although `flags[6]` is `false`. -/
theorem check_disposition_emits_unflagged_day :
    (6 : Int) ∈ check_disposition [0, 1, 2, 3, 4, 5, 6] flagsC ∧
      flagsC.getD 6 false = false := by
  decide

/-- A Python slice count over `flags[lo : lo + k]` equals the count of indices
`j` in `[lo, lo + k)` whose flag is set, entries past the end reading as
`false`. -/
theorem count_drop_take (flags : List Bool) :
    ∀ (k lo : Nat), ((flags.drop lo).take k).count true =
      (List.range' lo k).countP (fun j => flags.getD j false) := by
  intro k
  induction k with
  | zero => intro lo; simp
  | succ k ih =>
    intro lo
    by_cases h : lo < flags.length
    · rw [List.drop_eq_getElem_cons h, List.take_succ_cons, List.count_cons,
        show List.range' lo (k + 1) = lo :: List.range' (lo + 1) k by simp [List.range'_succ],
        List.countP_cons]
      rw [ih (lo + 1), List.getD_eq_getElem flags false h]
      by_cases hb : flags[lo] = true <;> simp [hb]
    · have hle : flags.length ≤ lo := Nat.le_of_not_lt h
      rw [List.drop_eq_nil_of_le hle]
      simp only [List.take_nil, List.count_nil]
      symm
      rw [List.countP_eq_zero]
      intro j hj
      have hlo : lo ≤ j := (List.mem_range'_1.mp hj).1
      have hj2 : flags.length ≤ j := Nat.le_trans hle hlo
      simp [List.getD_eq_default flags false hj2, List.getElem?_eq_none hj2]

/-- The slice count of `flags[lo : i+1]` is the window count over `[lo, i]`. -/
theorem sliceCount_eq_windowCount (flags : List Bool) (lo i : Nat) :
    sliceCount flags lo (i + 1) = windowCount flags lo i :=
  count_drop_take flags (i + 1 - lo) lo

/-- The `if`/`continue` chain of the source agrees with the disjunction of
the three specification rules at every index. -/
theorem triggers_eq_specTriggers (flags : List Bool) (i : Nat) :
    triggers flags i = specTriggers flags i := by
  unfold triggers specTriggers
  rw [sliceCount_eq_windowCount flags (i - 9) i, sliceCount_eq_windowCount flags (i - 29) i]
  by_cases h1 : 2 ≤ i ∧ flags.getD i false = true ∧ flags.getD (i-1) false = true ∧
      flags.getD (i-2) false = true <;>
    by_cases h2 : 6 ≤ windowCount flags (i - 9) i <;>
      by_cases h3 : 12 ≤ windowCount flags (i - 29) i <;>
        simp [h1, h2, h3]

/-- C1: on equal-length inputs, `check_disposition` emits exactly the dates
whose index satisfies Rule A (consecutive-3), Rule B (6 trues in the clamped
window `[max(0,i-9), i]`) or Rule C (12 trues in the clamped window
`[max(0,i-29), i]`), in chronological order. -/
theorem check_disposition_iff_rules (dates : List Int) (flags : List Bool)
    (h : dates.length = flags.length) :
    check_disposition dates flags =
      ((List.range dates.length).filter (fun i => specTriggers flags i)).map
        (fun i => dates.getD i 0) := by
  unfold check_disposition
  congr 1
  exact List.filter_congr fun i _ => triggers_eq_specTriggers flags i

/-- Instantiation of the rule characterisation at a concrete input. -/
theorem check_disposition_iff_rules_witness :
    check_disposition [10, 20, 30] [true, true, true] =
      ((List.range ([10, 20, 30] : List Int).length).filter
        (fun i => specTriggers [true, true, true] i)).map
        (fun i => ([10, 20, 30] : List Int).getD i 0) :=
  check_disposition_iff_rules [10, 20, 30] [true, true, true] rfl

/-- C2: the flagger returns one boolean per input day, and day `i` is flagged
exactly when one of the three per-day threshold conditions holds, every
threshold strict except the volume floor. -/
theorem flag_unusual_pointwise (rows : List (Row × Metrics)) :
    (flag_unusual rows).length = rows.length ∧
    ∀ i, i < rows.length →
      ((flag_unusual rows).getD i false = true ↔
        ((rows.getD i default).2.amplitude > 9 ∧ (rows.getD i default).2.amplitude_diff > 5 ∧
          (rows.getD i default).1.volume ≥ 3000) ∨
        ((rows.getD i default).2.price_change > 6 ∧ (rows.getD i default).2.price_diff > 4 ∧
          (rows.getD i default).1.volume ≥ 3000) ∨
        ((rows.getD i default).2.turnover > 10 ∧ (rows.getD i default).1.volume ≥ 3000)) := by
  constructor
  · simp [flag_unusual]
  · intro i hi
    have hlen : i < (flag_unusual rows).length := by simpa [flag_unusual] using hi
    rw [List.getD_eq_getElem _ false hlen, List.getD_eq_getElem _ default hi]
    simp only [flag_unusual, rowUnusual, List.getElem_map, Bool.or_eq_true,
      Bool.and_eq_true, decide_eq_true_iff]
    tauto

/-- An enriched sample row: volume at the floor and turnover above 10, so the
third condition flags the day. -/
def sampleRM : Row × Metrics :=
  (⟨0, 1, 1, 1, 1, 3000, 1, 1, 1, 1, 1⟩, ⟨0, 0, 0, 0, 11⟩)

/-- Instantiation of the flagger characterisation at a concrete day. -/
theorem flag_unusual_pointwise_witness :
    (flag_unusual [sampleRM]).getD 0 false = true ↔
      (([sampleRM].getD 0 default).2.amplitude > 9 ∧
        ([sampleRM].getD 0 default).2.amplitude_diff > 5 ∧
        ([sampleRM].getD 0 default).1.volume ≥ 3000) ∨
      (([sampleRM].getD 0 default).2.price_change > 6 ∧
        ([sampleRM].getD 0 default).2.price_diff > 4 ∧
        ([sampleRM].getD 0 default).1.volume ≥ 3000) ∨
      (([sampleRM].getD 0 default).2.turnover > 10 ∧
        ([sampleRM].getD 0 default).1.volume ≥ 3000) :=
  (flag_unusual_pointwise [sampleRM]).2 0 (by decide)

/-- The record components of a successful metric run are the input rows,
whatever the threaded previous-close state. -/
theorem computeMetricsAux_map_fst :
    ∀ (rows : List Row) (prev : Option (ℚ × ℚ)) (out : List (Row × Metrics)),
      computeMetricsAux prev rows = .ok out → out.map Prod.fst = rows := by
  intro rows
  induction rows with
  | nil =>
    intro prev out h
    simp only [computeMetricsAux] at h
    cases h
    rfl
  | cons row rest ih =>
    intro prev out h
    unfold computeMetricsAux at h
    split at h
    next e hm => cases h
    next m hm =>
      split at h
      next e ht => cases h
      next tail ht =>
        cases h
        simp [ih (some (row.close, row.idx_close)) tail ht]

/-- C4: a successful `compute_metrics` run returns one `(record, metrics)`
pair per input row, in input order, with every record field unchanged: the
in-place `row.update` of the source only adds the metric fields. -/
theorem compute_metrics_preserves_records (rows : List Row) (out : List (Row × Metrics))
    (h : compute_metrics rows = .ok out) :
    out.map Prod.fst = rows ∧ out.length = rows.length := by
  have h1 := computeMetricsAux_map_fst rows none out h
  exact ⟨h1, by rw [← h1, List.length_map]⟩

/-- A quiet sample row: flat prices, zero volume. -/
def baseRow : Row := ⟨0, 100, 100, 100, 100, 0, 100, 100, 100, 100, 1⟩

/-- The enriched output `compute_metrics` yields on `[baseRow]`. -/
def baseOut : List (Row × Metrics) := [(baseRow, ⟨0, 0, 0, 0, 0⟩)]

/-- Instantiation of the record-preservation theorem at a concrete run. -/
theorem compute_metrics_preserves_records_witness :
    baseOut.map Prod.fst = [baseRow] ∧ baseOut.length = [baseRow].length :=
  compute_metrics_preserves_records [baseRow] baseOut
    (by simp [compute_metrics, computeMetricsAux, computeRowMetrics, baseRow, baseOut])

/-- On the first row (no previous close) the computed metrics carry
`price_change = 0` and `price_diff = 0`. -/
theorem computeRowMetrics_none_zero (row : Row) (m : Metrics)
    (h : computeRowMetrics none row = .ok m) :
    m.price_change = 0 ∧ m.price_diff = 0 := by
  unfold computeRowMetrics at h
  split_ifs at h
  cases h
  exact ⟨rfl, by norm_num⟩

/-- C6: on any non-empty input, the metrics attached to the first record have
`price_change = 0` and `price_diff = 0`, whatever its raw close price. -/
theorem compute_metrics_first_record_zero (row : Row) (rest : List Row)
    (out : List (Row × Metrics)) (h : compute_metrics (row :: rest) = .ok out) :
    ∃ m tail, out = (row, m) :: tail ∧ m.price_change = 0 ∧ m.price_diff = 0 := by
  unfold compute_metrics computeMetricsAux at h
  split at h
  next e hm => cases h
  next m hm =>
    split at h
    next e ht => cases h
    next tail ht =>
      cases h
      have hz := computeRowMetrics_none_zero row m hm
      exact ⟨m, tail, rfl, hz.1, hz.2⟩

/-- Instantiation of the first-record boundary theorem at a concrete run. -/
theorem compute_metrics_first_record_zero_witness :
    ∃ m tail, baseOut = (baseRow, m) :: tail ∧ m.price_change = 0 ∧ m.price_diff = 0 :=
  compute_metrics_first_record_zero baseRow [] baseOut
    (by simp [compute_metrics, computeMetricsAux, computeRowMetrics, baseRow, baseOut])

/-- Predicate: the previous-close state contains a zero divisor. -/
def prevZero : Option (ℚ × ℚ) → Prop
  | none => False
  | some (pc, pic) => pc = 0 ∨ pic = 0

/-- The previous-close state the metric loop carries into iteration `i`,
having started from `prev`. -/
def prevAt (prev : Option (ℚ × ℚ)) (rows : List Row) : Nat → Option (ℚ × ℚ)
  | 0 => prev
  | i + 1 => some ((rows.getD i default).close, (rows.getD i default).idx_close)

/-- Iteration `i` of the metric loop hits a zero divisor. -/
def badAt (prev : Option (ℚ × ℚ)) (rows : List Row) (i : Nat) : Prop :=
  (rows.getD i default).low = 0 ∨ (rows.getD i default).idx_low = 0 ∨
    prevZero (prevAt prev rows i) ∨ (rows.getD i default).outstanding = 0

/-- One metric-loop iteration fails exactly when one of the divisors the
source divides by is zero. -/
theorem computeRowMetrics_error_iff (prev : Option (ℚ × ℚ)) (row : Row) :
    computeRowMetrics prev row = .error .zeroDivisor ↔
      (row.low = 0 ∨ row.idx_low = 0 ∨ prevZero prev ∨ row.outstanding = 0) := by
  cases prev with
  | none =>
    unfold computeRowMetrics
    split_ifs with h1 h2 h3 <;> simp_all [prevZero]
  | some p =>
    obtain ⟨pc, pic⟩ := p
    unfold computeRowMetrics
    split_ifs with h1 h2 h3 h4 h5 <;> simp_all [prevZero] <;> tauto

/-- Shifting the zero-divisor predicate across the head of the row list. -/
theorem badAt_succ (prev : Option (ℚ × ℚ)) (row : Row) (rest : List Row) (j : Nat) :
    badAt prev (row :: rest) (j + 1) ↔
      badAt (some (row.close, row.idx_close)) rest j := by
  cases j with
  | zero => simp [badAt, prevAt, prevZero]
  | succ k => simp [badAt, prevAt, prevZero]

/-- The metric loop fails exactly when some iteration hits a zero divisor. -/
theorem computeMetricsAux_error_iff :
    ∀ (rows : List Row) (prev : Option (ℚ × ℚ)),
      computeMetricsAux prev rows = .error .zeroDivisor ↔
        ∃ i, i < rows.length ∧ badAt prev rows i := by
  intro rows
  induction rows with
  | nil => intro prev; simp [computeMetricsAux]
  | cons row rest ih =>
    intro prev
    constructor
    · intro h
      unfold computeMetricsAux at h
      split at h
      next e hm =>
        cases e
        refine ⟨0, Nat.succ_pos _, ?_⟩
        have hbad := (computeRowMetrics_error_iff prev row).mp hm
        simpa [badAt, prevAt] using hbad
      next m hm =>
        split at h
        next e ht =>
          cases e
          obtain ⟨j, hj, hb⟩ := (ih (some (row.close, row.idx_close))).mp ht
          exact ⟨j + 1, Nat.succ_lt_succ hj, (badAt_succ prev row rest j).mpr hb⟩
        next tail ht => cases h
    · rintro ⟨i, hi, hb⟩
      unfold computeMetricsAux
      cases i with
      | zero =>
        have hbad : row.low = 0 ∨ row.idx_low = 0 ∨ prevZero prev ∨ row.outstanding = 0 := by
          simpa [badAt, prevAt] using hb
        rw [(computeRowMetrics_error_iff prev row).mpr hbad]
      | succ j =>
        have hb2 := (badAt_succ prev row rest j).mp hb
        have ht := (ih (some (row.close, row.idx_close))).mpr
          ⟨j, Nat.lt_of_succ_lt_succ hi, hb2⟩
        cases hm : computeRowMetrics prev row with
        | error e => cases e; rfl
        | ok m => rw [ht]

/-- With no initial previous close, a zero divisor at iteration `i` means a
zero field of record `i` or a zero close of its predecessor record. -/
theorem badAt_none (rows : List Row) (i : Nat) :
    badAt none rows i ↔
      ((rows.getD i default).low = 0 ∨ (rows.getD i default).idx_low = 0 ∨
        (0 < i ∧ ((rows.getD (i-1) default).close = 0 ∨
          (rows.getD (i-1) default).idx_close = 0)) ∨
        (rows.getD i default).outstanding = 0) := by
  cases i with
  | zero => simp [badAt, prevAt, prevZero]
  | succ j => simp [badAt, prevAt, prevZero]

/-- Some record of the batch forces a zero divisor: its own `low`, `idx_low`
or `outstanding` is zero, or it has a predecessor record whose `close` or
`idx_close` is zero. -/
def hasZeroDivisor (rows : List Row) : Prop :=
  ∃ i, i < rows.length ∧
    ((rows.getD i default).low = 0 ∨ (rows.getD i default).idx_low = 0 ∨
      (0 < i ∧ ((rows.getD (i-1) default).close = 0 ∨
        (rows.getD (i-1) default).idx_close = 0)) ∨
      (rows.getD i default).outstanding = 0)

/-- C3 (amended): `compute_metrics` fails exactly when a record has
`low = 0`, `indexLow = 0` or `outstandingShares = 0`, or (for `i > 0`) the
previous record has `close = 0` or `indexClose = 0`; negative values of
these fields raise nothing. -/
theorem compute_metrics_error_iff_zero_divisor (rows : List Row) :
    compute_metrics rows = .error .zeroDivisor ↔ hasZeroDivisor rows := by
  rw [compute_metrics, computeMetricsAux_error_iff rows none]
  exact exists_congr fun i => and_congr Iff.rfl (badAt_none rows i)

/-- A record with negative `low` and every other price field positive. -/
def negLowRow : Row := ⟨0, 1, 1, -1, 1, 0, 1, 1, 1, 1, 1⟩

/-- C3 counterexample: this record has `low ≤ 0`, yet `compute_metrics`
succeeds on it instead of failing with a `DataError`: the code only raises
on a divisor that is exactly zero. -/
theorem compute_metrics_negative_low_succeeds :
    negLowRow.low ≤ 0 ∧
      compute_metrics [negLowRow] = .ok [(negLowRow, ⟨-200, -200, 0, 0, 0⟩)] := by
  constructor
  · norm_num [negLowRow]
  · norm_num [compute_metrics, computeMetricsAux, computeRowMetrics, negLowRow]

/-- The evaluator output rewritten through `Fin`-indexed selection. -/
theorem check_disposition_eq_finRange (dates : List Int) (flags : List Bool) :
    check_disposition dates flags =
      ((List.finRange dates.length).filter (fun i => triggers flags i.val)).map
        dates.get := by
  unfold check_disposition
  rw [← List.map_coe_finRange, List.filter_map, List.map_map]
  apply List.map_congr_left
  intro i hi
  simp [Function.comp, List.getD_eq_getElem dates 0 i.isLt]

/-- C5: on input with strictly ascending dates, the emitted dates form a
sublist of the input dates (hence contain no date outside the input), are
strictly increasing, and contain no duplicates. -/
theorem check_disposition_sublist_sorted (dates : List Int) (flags : List Bool)
    (hlen : dates.length = flags.length) (hsort : List.Sorted (· < ·) dates) :
    (check_disposition dates flags).Sublist dates ∧
      List.Sorted (· < ·) (check_disposition dates flags) ∧
      (check_disposition dates flags).Nodup := by
  have hsub : (check_disposition dates flags).Sublist dates := by
    rw [check_disposition_eq_finRange]
    have h1 : (((List.finRange dates.length).filter
        (fun i => triggers flags i.val)).map dates.get).Sublist
          ((List.finRange dates.length).map dates.get) :=
      (List.filter_sublist _).map dates.get
    rwa [List.finRange_map_get dates] at h1
  have hs2 : List.Sorted (· < ·) (check_disposition dates flags) :=
    List.Pairwise.sublist hsub hsort
  exact ⟨hsub, hs2, List.Pairwise.imp ne_of_lt hs2⟩

/-- Instantiation of the sublist-and-sorted theorem at a concrete input. -/
theorem check_disposition_sublist_sorted_witness :
    (check_disposition [5, 7, 9] [true, true, true]).Sublist [5, 7, 9] ∧
      List.Sorted (· < ·) (check_disposition [5, 7, 9] [true, true, true]) ∧
      (check_disposition [5, 7, 9] [true, true, true]).Nodup :=
  check_disposition_sublist_sorted [5, 7, 9] [true, true, true] rfl (by decide)

/-- C7: the fetcher turns a transport failure into its transport-failure
error and a payload whose status is not OK into its API error carrying
that status. -/
theorem fetch_limit_up_failure_modes :
    (∀ e : String, fetch_limit_up (.error e) =
      .error (.fetchError (String.append "Failed to fetch data: " e))) ∧
    (∀ p : Payload, p.stat ≠ "OK" →
      fetch_limit_up (.ok p) = .error (.apiError p.stat)) := by
  refine ⟨fun e => rfl, fun p hp => ?_⟩
  simp [fetch_limit_up, hp]

/-- Instantiation of the failure-mode theorem at a rejected payload. -/
theorem fetch_limit_up_failure_modes_witness :
    fetch_limit_up (.ok ⟨"ERROR", []⟩) = .error (.apiError "ERROR") :=
  fetch_limit_up_failure_modes.2 ⟨"ERROR", []⟩ (by decide)
